import Mathlib

/-!
Verification of the MITRE ATT&CK technique-correlation tool
(`MITRE AI Mapping/archive/mitremappingv3.py`).

The development shallowly embeds the program's own logic:

* the construction of `technique_details` records with placeholder defaults,
* the top-3 similarity ranking (`np.argsort(-similarities)[:3]`),
* the result-string formatting (`"\n\n".join(...)` of fixed-format blocks,
  similarities rendered with four decimal places),
* the background pipeline `find_similar_techniques` as a trace of observable
  events (progress callbacks, queue puts, error dialogs),
* the submit handler `on_submit` and the queue-polling display update
  `check_queue`.

External collaborators (the sentence-embedding model and the ATT&CK client)
are parameters of the pipeline: an encoding or fetch outcome is an
`Except String` value and the similarity scoring is an abstract function,
mirroring the fact that the program delegates those computations.

Machine floats are modelled exactly: similarity scores as rationals, and the
cosine-similarity routine of `sentence_transformers.util` over the reals
(its zero-norm guard is an epsilon clamp, not a branch, so the reals carry
the division structure faithfully).
-/

namespace MitreMapping

/-- A raw technique record as returned by `lift.get_techniques`; every field
the program reads may be absent (`technique.get(key, default)` in the
source). -/
structure RawTechnique where
  technique_id : Option String
  technique : Option String
  technique_description : Option String
  tactic : Option (List String)
deriving DecidableEq

/-- One entry of the `technique_details` list built by
`find_similar_techniques` (source lines 58–65). -/
structure TechniqueDetail where
  id : String
  name : String
  description : String
  tactic : String
deriving DecidableEq

/-- A top match: the technique detail together with its similarity score
(`{**technique_details[index], 'similarity': ...}`, source line 72). -/
structure ScoredMatch where
  id : String
  name : String
  description : String
  tactic : String
  similarity : ℚ
deriving DecidableEq

/-- Source lines 59–65: `technique_details.append({'id': technique.get(
'technique_id', 'No ID'), 'name': technique.get('technique', 'No Name'),
'description': technique.get('technique_description', 'No Description'),
'tactic': ', '.join(technique.get('tactic', []))})`. -/
def mkDetail (t : RawTechnique) : TechniqueDetail where
  id := t.technique_id.getD "No ID"
  name := t.technique.getD "No Name"
  description := t.technique_description.getD "No Description"
  tactic := String.intercalate ", " (t.tactic.getD [])

/-- The comparison `np.argsort` uses on indices: position `i` precedes
position `j` when the value at `i` is at most the value at `j` (out-of-range
positions read the default `0`, and are never produced). -/
def argsortRel (xs : List ℚ) (i j : ℕ) : Prop :=
  xs.getD i 0 ≤ xs.getD j 0

instance (xs : List ℚ) : DecidableRel (argsortRel xs) := fun i j =>
  inferInstanceAs (Decidable (xs.getD i 0 ≤ xs.getD j 0))

instance (xs : List ℚ) : IsTotal ℕ (argsortRel xs) :=
  ⟨fun _ _ => le_total _ _⟩

instance (xs : List ℚ) : IsTrans ℕ (argsortRel xs) :=
  ⟨fun _ _ _ => le_trans⟩

/-- `np.argsort xs`: the indices `0, …, xs.length - 1` ordered so that the
values they select are non-decreasing.  NumPy is called with its default
sort kind, whose order among equal values is implementation-defined; this
model fixes one admissible order (a stable insertion sort). -/
def argsort (xs : List ℚ) : List ℕ :=
  List.insertionSort (argsortRel xs) (List.range xs.length)

/-- Source line 71: `top_matches_indices = np.argsort(-similarities[0])[:3]`. -/
def top_matches_indices (sims : List ℚ) : List ℕ :=
  (argsort (sims.map (fun x => -x))).take 3

/-- The detail used when indexing out of range; the ranking never reads it. -/
def emptyDetail : TechniqueDetail where
  id := ""
  name := ""
  description := ""
  tactic := ""

/-- Source line 72: `top_matches = [{**technique_details[index],
'similarity': similarities[0][index].item()} for index in
top_matches_indices]`. -/
def top_matches (details : List TechniqueDetail) (sims : List ℚ) :
    List ScoredMatch :=
  (top_matches_indices sims).map (fun i =>
    let d := details.getD i emptyDetail
    { id := d.id
      name := d.name
      description := d.description
      tactic := d.tactic
      similarity := sims.getD i 0 })

/-- Round a rational to the nearest integer, ties to even: the rounding
Python's fixed-point `format` applies to the (exact) value it prints. -/
def roundHalfEven (q : ℚ) : ℤ :=
  let f : ℤ := ⌊q⌋
  let r : ℚ := q - f
  if r < 1 / 2 then f
  else if 1 / 2 < r then f + 1
  else if f % 2 = 0 then f else f + 1

/-- Zero-pad the fractional digits to width four. -/
def pad4 (n : ℕ) : String :=
  let s := toString n
  String.mk (List.replicate (4 - s.length) '0') ++ s

/-- Python's `f"{x:.4f}"`: the value rounded half-to-even to four decimal
places and printed with exactly four fractional digits. -/
def formatFixed4 (q : ℚ) : String :=
  let n : ℤ := roundHalfEven (q * 10000)
  let sign := if n < 0 then "-" else ""
  let m := n.natAbs
  sign ++ toString (m / 10000) ++ "." ++ pad4 (m % 10000)

/-- One block of the output, source line 75: `f"ID: {match['id']}\nName:
{match['name']}\nTactic: {match['tactic']}\nSimilarity:
{match['similarity']:.4f}"`. -/
def formatMatch (m : ScoredMatch) : String :=
  "ID: " ++ m.id ++ "\n" ++ "Name: " ++ m.name ++ "\n" ++
    "Tactic: " ++ m.tactic ++ "\n" ++ "Similarity: " ++
    formatFixed4 m.similarity

/-- Source line 75: `result_text = "\n\n".join([... for match in
top_matches])`. -/
def resultText (tops : List ScoredMatch) : String :=
  String.intercalate "\n\n" (tops.map formatMatch)

/-- An observable action of the background task: a `progress_callback`
invocation, a `result_queue.put`, or a `messagebox.showerror` dialog. -/
inductive Event where
  | progress (n : ℕ)
  | put (s : String)
  | errorDialog (msg : String)
deriving DecidableEq

/-- An embedding vector; its contents only matter through the abstract
similarity scoring. -/
def Emb : Type := List ℚ

/-- The background task `find_similar_techniques` (source lines 40–77) as
the trace of its observable events.  `enc` is the outcome of
`model.encode(sentence)`, `fetch` the outcome of
`lift.get_techniques(stix_format=False)`, and `sim q d` the cosine
similarity the external model assigns to the query embedding `q` and a
technique description `d` (the second `model.encode` composed with
`util.pytorch_cos_sim`). -/
def find_similar_techniques (enc : Except String Emb)
    (fetch : Except String (List RawTechnique))
    (sim : Emb → String → ℚ) : List Event :=
  match enc with
  | .error e => [.errorDialog ("Error encoding sentence: " ++ e)]
  | .ok q =>
    .progress 20 ::
      match fetch with
      | .error e =>
          [.errorDialog
            ("Error fetching techniques from MITRE ATT&CK database: " ++ e)]
      | .ok techniques =>
        .progress 50 ::
          let technique_details := techniques.map mkDetail
          let similarities :=
            technique_details.map (fun d => sim q d.description)
          let tops := top_matches technique_details similarities
          [.put (resultText tops), .progress 100]

/-- An observable action of the GUI submit handler. -/
inductive UIAction where
  | showInfo (msg : String)
  | setProgress (n : ℕ)
  | clearResult
  | startThread (sentence : String)
deriving DecidableEq

/-- The whitespace characters Python's `str.strip()` removes (ASCII). -/
def isPySpace (c : Char) : Bool :=
  c = ' ' || c = '\t' || c = '\n' || c = '\r' ||
    c = Char.ofNat 11 || c = Char.ofNat 12

/-- Python's `sentence.strip()` (leading and trailing whitespace removed). -/
def pyStrip (s : String) : String :=
  String.mk (((s.toList.dropWhile isPySpace).reverse.dropWhile
    isPySpace).reverse)

/-- The submit handler `on_submit` (source lines 86–97) as the list of UI
actions it performs: blank input is rejected with an informational dialog;
otherwise the progress bar is reset, the display cleared, and a background
thread started on the sentence. -/
def on_submit (sentence : String) : List UIAction :=
  if pyStrip sentence = "" then
    [.showInfo "Please enter a sentence."]
  else
    [.setProgress 0, .clearResult, .startThread sentence]

/-- One tick of `check_queue` (source lines 99–107) that finds a result on
the queue: `result_text.insert(tk.END, result)` appends the result string
to the display verbatim. -/
def check_queue (display result : String) : String :=
  display ++ result

/-- The display after `check_queue` ticks have drained the given results in
arrival order. -/
def drainResults (display : String) (results : List String) : String :=
  results.foldl check_queue display

/-- `eps` of `torch.nn.functional.normalize`. -/
noncomputable def torchEps : ℝ := 1 / 1000000000000

/-- Dot product of two vectors (trailing entries of the longer one ignored,
as in the fixed-dimension tensors of the source). -/
noncomputable def dot (a b : List ℝ) : ℝ :=
  (List.zipWith (fun x y => x * y) a b).sum

/-- Euclidean norm of a vector. -/
noncomputable def l2norm (v : List ℝ) : ℝ :=
  Real.sqrt ((v.map (fun x => x * x)).sum)

/-- `torch.nn.functional.normalize(v, p=2)`: divide each entry by the norm
clamped below by `eps`, so a zero vector maps to the zero vector. -/
noncomputable def normalizeVec (v : List ℝ) : List ℝ :=
  v.map (fun x => x / max (l2norm v) torchEps)

/-- `sentence_transformers.util.pytorch_cos_sim` for a single pair, as the
library computes it: the dot product of the eps-clamped normalizations. -/
noncomputable def pytorch_cos_sim (a b : List ℝ) : ℝ :=
  dot (normalizeVec a) (normalizeVec b)

/-! ### Properties of the ranking step -/

theorem argsort_length (xs : List ℚ) : (argsort xs).length = xs.length := by
  simp [argsort]

theorem mem_argsort {xs : List ℚ} {i : ℕ} (h : i ∈ argsort xs) :
    i < xs.length := by
  have hm :=
    (List.perm_insertionSort (argsortRel xs) (List.range xs.length)).mem_iff.mp h
  simpa using hm

theorem argsort_sorted (xs : List ℚ) :
    List.Sorted (argsortRel xs) (argsort xs) :=
  List.sorted_insertionSort _ _

theorem getD_map_neg (l : List ℚ) (i : ℕ) :
    (l.map (fun x => -x)).getD i 0 = -(l.getD i 0) := by
  rcases lt_or_ge i l.length with h | h
  · rw [List.getD_eq_getElem _ _ (by simpa using h),
      List.getD_eq_getElem _ _ h, List.getElem_map]
  · rw [List.getD_eq_default _ _ (by simpa using h),
      List.getD_eq_default _ _ h, neg_zero]

theorem top_matches_indices_length (sims : List ℚ) :
    (top_matches_indices sims).length = min 3 sims.length := by
  simp [top_matches_indices, argsort_length]

theorem top_matches_map_similarity (details : List TechniqueDetail)
    (sims : List ℚ) :
    (top_matches details sims).map (fun m => m.similarity) =
      (top_matches_indices sims).map (fun i => sims.getD i 0) := by
  simp [top_matches, List.map_map]

theorem top_matches_indices_sorted (sims : List ℚ) :
    List.Pairwise (fun i j => sims.getD j 0 ≤ sims.getD i 0)
      (top_matches_indices sims) := by
  have hs := argsort_sorted (sims.map (fun x => -x))
  have ht :
      List.Pairwise (argsortRel (sims.map (fun x => -x)))
        (top_matches_indices sims) :=
    List.Pairwise.sublist (List.take_sublist 3 _) hs
  refine ht.imp ?_
  intro i j hij
  have h1 : (sims.map (fun x => -x)).getD i 0 ≤
      (sims.map (fun x => -x)).getD j 0 := hij
  rw [getD_map_neg, getD_map_neg] at h1
  exact neg_le_neg_iff.mp h1

/-- C1: the ranking step returns exactly `min 3 n` scored matches, ordered
by similarity non-increasing; an empty candidate list yields an empty match
sequence. -/
theorem rank_min3_sorted (details : List TechniqueDetail) (sims : List ℚ)
    (h : sims.length = details.length) :
    (top_matches details sims).length = min 3 details.length ∧
    List.Sorted (fun a b => a ≥ b)
      ((top_matches details sims).map (fun m => m.similarity)) ∧
    (details = [] → top_matches details sims = []) := by
  refine ⟨?_, ?_, ?_⟩
  · simp [top_matches, top_matches_indices_length, h]
  · rw [top_matches_map_similarity]
    exact List.pairwise_map.mpr (top_matches_indices_sorted sims)
  · intro hd
    have hlen : (top_matches details sims).length = 0 := by
      simp [top_matches, top_matches_indices_length, h, hd]
    exact List.eq_nil_of_length_eq_zero hlen

/-- Witness for C1 at a concrete two-candidate input. -/
theorem rank_min3_sorted_witness :
    ([(1 : ℚ) / 2, 3 / 4].length =
        [mkDetail ⟨some "T1", some "A", some "da", some ["ta"]⟩,
          mkDetail ⟨some "T2", some "B", some "db", some ["tb"]⟩].length) ∧
    ((top_matches
        [mkDetail ⟨some "T1", some "A", some "da", some ["ta"]⟩,
          mkDetail ⟨some "T2", some "B", some "db", some ["tb"]⟩]
        [(1 : ℚ) / 2, 3 / 4]).length =
      min 3
        [mkDetail ⟨some "T1", some "A", some "da", some ["ta"]⟩,
          mkDetail ⟨some "T2", some "B", some "db", some ["tb"]⟩].length ∧
      List.Sorted (fun a b => a ≥ b)
        ((top_matches
          [mkDetail ⟨some "T1", some "A", some "da", some ["ta"]⟩,
            mkDetail ⟨some "T2", some "B", some "db", some ["tb"]⟩]
          [(1 : ℚ) / 2, 3 / 4]).map (fun m => m.similarity)) ∧
      ([mkDetail ⟨some "T1", some "A", some "da", some ["ta"]⟩,
          mkDetail ⟨some "T2", some "B", some "db", some ["tb"]⟩] =
            ([] : List TechniqueDetail) →
        top_matches
          [mkDetail ⟨some "T1", some "A", some "da", some ["ta"]⟩,
            mkDetail ⟨some "T2", some "B", some "db", some ["tb"]⟩]
          [(1 : ℚ) / 2, 3 / 4] = [])) :=
  ⟨by decide, rank_min3_sorted _ _ (by decide)⟩

/-! ### Zero-norm safety of the cosine similarity -/

theorem sumSq_nonneg (v : List ℝ) : 0 ≤ ((v.map (fun x => x * x)).sum) :=
  List.sum_nonneg (by
    intro x hx
    obtain ⟨y, _, rfl⟩ := List.mem_map.mp hx
    exact mul_self_nonneg y)

theorem all_zero_of_sumSq_eq_zero {v : List ℝ}
    (h : ((v.map (fun x => x * x)).sum) = 0) : ∀ x ∈ v, x = 0 := by
  induction v with
  | nil => intro x hx; cases hx
  | cons a t ih =>
    have hsum : a * a + ((t.map (fun x => x * x)).sum) = 0 := by
      simpa using h
    have hz :=
      (add_eq_zero_iff_of_nonneg (mul_self_nonneg a) (sumSq_nonneg t)).mp hsum
    intro x hx
    rcases List.mem_cons.mp hx with rfl | hxt
    · exact mul_self_eq_zero.mp hz.1
    · exact ih hz.2 x hxt

theorem all_zero_of_l2norm_eq_zero {v : List ℝ} (h : l2norm v = 0) :
    ∀ x ∈ v, x = 0 := by
  have hs : ((v.map (fun x => x * x)).sum) = 0 :=
    (Real.sqrt_eq_zero (sumSq_nonneg v)).mp h
  exact all_zero_of_sumSq_eq_zero hs

theorem dot_eq_zero_left {a : List ℝ} (b : List ℝ)
    (h : ∀ x ∈ a, x = 0) : dot a b = 0 := by
  induction a generalizing b with
  | nil => simp [dot]
  | cons x t ih =>
    cases b with
    | nil => simp [dot]
    | cons y u =>
      have hx : x = 0 := h x (List.mem_cons_self x t)
      have ht : ∀ z ∈ t, z = 0 := fun z hz => h z (List.mem_cons_of_mem x hz)
      have := ih u ht
      simp only [dot, List.zipWith_cons_cons, List.sum_cons] at *
      rw [hx, zero_mul, zero_add, this]

theorem dot_eq_zero_right (a : List ℝ) {b : List ℝ}
    (h : ∀ x ∈ b, x = 0) : dot a b = 0 := by
  induction a generalizing b with
  | nil => simp [dot]
  | cons x t ih =>
    cases b with
    | nil => simp [dot]
    | cons y u =>
      have hy : y = 0 := h y (List.mem_cons_self y u)
      have hu : ∀ z ∈ u, z = 0 := fun z hz => h z (List.mem_cons_of_mem y hz)
      have := ih hu
      simp only [dot, List.zipWith_cons_cons, List.sum_cons] at *
      rw [hy, mul_zero, zero_add, this]

theorem normalizeVec_all_zero {v : List ℝ} (h : ∀ x ∈ v, x = 0) :
    ∀ x ∈ normalizeVec v, x = 0 := by
  intro x hx
  obtain ⟨y, hy, rfl⟩ := List.mem_map.mp hx
  rw [h y hy, zero_div]

/-- C3: when either vector has zero norm, the library's cosine similarity
is `0` (the clamp `max ‖v‖ eps` keeps the divisor positive), not a
division fault. -/
theorem cos_sim_zero_norm (a b : List ℝ)
    (h : l2norm a = 0 ∨ l2norm b = 0) : pytorch_cos_sim a b = 0 := by
  rcases h with ha | hb
  · exact dot_eq_zero_left (normalizeVec b)
      (normalizeVec_all_zero (all_zero_of_l2norm_eq_zero ha))
  · exact dot_eq_zero_right (normalizeVec a)
      (normalizeVec_all_zero (all_zero_of_l2norm_eq_zero hb))

/-- Witness for C3: the zero query vector against the vector `(3, 4)`. -/
theorem cos_sim_zero_norm_witness :
    l2norm [(0 : ℝ), 0] = 0 ∧ pytorch_cos_sim [(0 : ℝ), 0] [3, 4] = 0 :=
  ⟨by simp [l2norm],
    cos_sim_zero_norm [(0 : ℝ), 0] [3, 4] (Or.inl (by simp [l2norm]))⟩

/-! ### The background pipeline's trace -/

/-- The string carried by a `put` event, if any. -/
def putText : Event → Option String
  | .put s => some s
  | _ => none

/-- The milestone carried by a `progress` event, if any. -/
def progressOf : Event → Option ℕ
  | .progress n => some n
  | _ => none

/-- C4: an encoding or fetch failure terminates the pipeline: nothing is
put on the result queue, progress never passes the last reached milestone
(none, or 20), and the whole trace is a single error dialog after at most
one progress report — no retry. -/
theorem failure_aborts_pipeline (enc : Except String Emb)
    (fetch : Except String (List RawTechnique)) (sim : Emb → String → ℚ)
    (h : (∃ e, enc = .error e) ∨ (∃ e, fetch = .error e)) :
    (∀ s, Event.put s ∉ find_similar_techniques enc fetch sim) ∧
    (∀ n, Event.progress n ∈ find_similar_techniques enc fetch sim →
      n = 20) ∧
    (∃ msg,
      find_similar_techniques enc fetch sim = [Event.errorDialog msg] ∨
      find_similar_techniques enc fetch sim =
        [Event.progress 20, Event.errorDialog msg]) := by
  cases enc with
  | error e =>
    refine ⟨?_, ?_, ⟨"Error encoding sentence: " ++ e, Or.inl rfl⟩⟩
    · intro s hs
      simp [find_similar_techniques] at hs
    · intro n hn
      simp [find_similar_techniques] at hn
  | ok q =>
    cases fetch with
    | error e =>
      refine ⟨?_, ?_,
        ⟨"Error fetching techniques from MITRE ATT&CK database: " ++ e,
          Or.inr rfl⟩⟩
      · intro s hs
        simp [find_similar_techniques] at hs
      · intro n hn
        simpa [find_similar_techniques] using hn
    | ok ts =>
      rcases h with ⟨e, he⟩ | ⟨e, he⟩ <;> cases he

/-- Witness for C4: a failing encoder, with an empty corpus and a constant
similarity on the other inputs. -/
theorem failure_aborts_pipeline_witness :
    ((∃ e, (Except.error "boom" : Except String Emb) = .error e) ∨
      (∃ e, (Except.ok [] : Except String (List RawTechnique)) =
        .error e)) ∧
    ((∀ s, Event.put s ∉
        find_similar_techniques (.error "boom") (.ok [])
          (fun _ _ => 0)) ∧
      (∀ n, Event.progress n ∈
          find_similar_techniques (.error "boom") (.ok [])
            (fun _ _ => 0) → n = 20) ∧
      (∃ msg,
        find_similar_techniques (.error "boom") (.ok [])
            (fun _ _ => 0) = [Event.errorDialog msg] ∨
        find_similar_techniques (.error "boom") (.ok [])
            (fun _ _ => 0) =
          [Event.progress 20, Event.errorDialog msg])) :=
  ⟨Or.inl ⟨"boom", rfl⟩,
    failure_aborts_pipeline _ _ _ (Or.inl ⟨"boom", rfl⟩)⟩

/-- C7: a successful run puts exactly one string on the queue: the blocks
`ID: …`, `Name: …`, `Tactic: …`, `Similarity: …` (four decimal places),
consecutive blocks separated by one blank line (`"\n\n"`). -/
theorem result_format (q : Emb) (ts : List RawTechnique)
    (sim : Emb → String → ℚ) :
    (find_similar_techniques (.ok q) (.ok ts) sim).filterMap putText =
      [String.intercalate "\n\n"
        ((top_matches (ts.map mkDetail)
            ((ts.map mkDetail).map (fun d => sim q d.description))).map
          (fun m => "ID: " ++ m.id ++ "\n" ++ "Name: " ++ m.name ++ "\n" ++
            "Tactic: " ++ m.tactic ++ "\n" ++ "Similarity: " ++
            formatFixed4 m.similarity))] :=
  rfl

/-- C8: a completed run reports exactly the milestones 20, 50, 100, in this
order, and no other progress values. -/
theorem progress_milestones (q : Emb) (ts : List RawTechnique)
    (sim : Emb → String → ℚ) :
    (find_similar_techniques (.ok q) (.ok ts) sim).filterMap progressOf =
      [20, 50, 100] :=
  rfl

/-- C10: in a completed run the result is put on the queue strictly before
the progress callback reports 100. -/
theorem put_before_progress100 (q : Emb) (ts : List RawTechnique)
    (sim : Emb → String → ℚ) :
    ∃ pre post,
      find_similar_techniques (.ok q) (.ok ts) sim =
        pre ++
          Event.put (resultText (top_matches (ts.map mkDetail)
            ((ts.map mkDetail).map (fun d => sim q d.description)))) ::
            post ∧
      Event.progress 100 ∉ pre ∧ Event.progress 100 ∈ post := by
  refine ⟨[.progress 20, .progress 50], [.progress 100], rfl, ?_, ?_⟩
  · simp
  · simp

/-! ### The submit handler -/

/-- C5: blank (empty or whitespace-only) input is rejected synchronously
with an informational notice; no thread is started and neither the progress
bar nor the result display is touched. -/
theorem blank_input_rejected (s : String)
    (h : ∀ c ∈ s.toList, isPySpace c) :
    on_submit s = [UIAction.showInfo "Please enter a sentence."] ∧
    (∀ t, UIAction.startThread t ∉ on_submit s) ∧
    (∀ n, UIAction.setProgress n ∉ on_submit s) ∧
    UIAction.clearResult ∉ on_submit s := by
  have h1 : s.toList.dropWhile isPySpace = [] :=
    List.dropWhile_eq_nil_iff.mpr h
  have hstrip : pyStrip s = "" := by
    rw [pyStrip, h1]
    rfl
  rw [on_submit, if_pos hstrip]
  refine ⟨rfl, ?_, ?_, ?_⟩ <;> simp

/-- Witness for C5: the three-space input of the spec's example. -/
theorem blank_input_rejected_witness :
    (∀ c ∈ ("   " : String).toList, isPySpace c) ∧
    (on_submit "   " = [UIAction.showInfo "Please enter a sentence."] ∧
      (∀ t, UIAction.startThread t ∉ on_submit "   ") ∧
      (∀ n, UIAction.setProgress n ∉ on_submit "   ") ∧
      UIAction.clearResult ∉ on_submit "   ") :=
  ⟨by decide, blank_input_rejected "   " (by decide)⟩

/-! ### Placeholder defaults for missing record fields -/

/-- C6: a missing id, name, description or tactic list is replaced by
`"No ID"`, `"No Name"`, `"No Description"`, and the empty join
respectively. -/
theorem missing_fields_defaults (t : RawTechnique) :
    (t.technique_id = none → (mkDetail t).id = "No ID") ∧
    (t.technique = none → (mkDetail t).name = "No Name") ∧
    (t.technique_description = none →
      (mkDetail t).description = "No Description") ∧
    (t.tactic = none → (mkDetail t).tactic = "") := by
  refine ⟨fun h => by simp [mkDetail, h], fun h => by simp [mkDetail, h],
    fun h => by simp [mkDetail, h], fun h => ?_⟩
  simp [mkDetail, h]
  rfl

/-- Witness for C6: the record with every field absent. -/
theorem missing_fields_defaults_witness :
    (mkDetail ⟨none, none, none, none⟩).id = "No ID" ∧
    (mkDetail ⟨none, none, none, none⟩).name = "No Name" ∧
    (mkDetail ⟨none, none, none, none⟩).description = "No Description" ∧
    (mkDetail ⟨none, none, none, none⟩).tactic = "" :=
  have h := missing_fields_defaults ⟨none, none, none, none⟩
  ⟨h.1 rfl, h.2.1 rfl, h.2.2.1 rfl, h.2.2.2 rfl⟩

/-! ### Display updates across two submissions -/

/-- The amended C9: both results are appended to the display whole, in
arrival order — but `check_queue` inserts them back to back, with no
separator between the two texts. -/
theorem results_appended_whole (d r1 r2 : String) :
    drainResults d [r1, r2] = d ++ r1 ++ r2 := by
  simp [drainResults, check_queue]

theorem roundHalfEven_zero : roundHalfEven 0 = 0 := by
  norm_num [roundHalfEven]

theorem formatFixed4_zero : formatFixed4 0 = "0.0000" := by
  have h0 : ((0 : ℚ) * 10000) = 0 := by norm_num
  simp only [formatFixed4, h0, roundHalfEven_zero]
  rfl

theorem top_matches_single :
    top_matches [mkDetail ⟨none, none, none, none⟩] [(0 : ℚ)] =
      [{ id := "No ID", name := "No Name", description := "No Description",
          tactic := "", similarity := 0 }] := by
  have hneg : ([(0 : ℚ)].map (fun x => -x)) = [(0 : ℚ)] := by norm_num
  simp [top_matches, top_matches_indices, argsort, hneg, List.range_succ,
    mkDetail]
  rfl

theorem resultText_single :
    resultText (top_matches [mkDetail ⟨none, none, none, none⟩]
        [(0 : ℚ)]) =
      "ID: No ID\nName: No Name\nTactic: \nSimilarity: 0.0000" := by
  rw [top_matches_single, resultText]
  simp only [List.map, formatMatch, formatFixed4_zero]
  rfl

/-- Counterexample to C9 as stated: two completed runs over a one-technique
corpus put identical result texts, and the drained display holds them with
no blank line in between. -/
theorem no_blank_line_between_results :
    drainResults ""
        [resultText (top_matches [mkDetail ⟨none, none, none, none⟩]
            [(0 : ℚ)]),
          resultText (top_matches [mkDetail ⟨none, none, none, none⟩]
            [(0 : ℚ)])] ≠
      resultText (top_matches [mkDetail ⟨none, none, none, none⟩]
          [(0 : ℚ)]) ++
        "\n\n" ++
        resultText (top_matches [mkDetail ⟨none, none, none, none⟩]
          [(0 : ℚ)]) := by
  simp only [drainResults, List.foldl, check_queue, resultText_single]
  decide

end MitreMapping
